import Mathlib

/-!
# The metric-emitting matching client (`client/matching/metricClient.go`)

A shallow embedding of the decorator `metricClient`, which wraps a matching
`Client`, emits request, latency, failure and forwarding metrics around every
call, and hands the inner client's result back to the caller.

Effects are made explicit.  A `World` holds the log of observable events
(metric emissions and inner-client calls, oldest first) and the state of the
inner client.  A Go pointer is an `Option` (`none` is `nil`); reading a field
through a `nil` pointer panics, which is an explicit outcome.
-/

namespace Cadence

/-! ## Go runtime: panics, outcomes, the execution monad -/

/-- A value carried by a Go panic. -/
inductive Panic where
  | nilPointerDereference
  | other (value : String)
  deriving DecidableEq, Repr

/-- How a call ends: it returns a value, or it panics; either way it leaves a state. -/
inductive Outcome (ω α : Type) where
  | returned (value : α) (state : ω)
  | panicked (p : Panic) (state : ω)

/-- The Go `error` interface value; `nil` is `none : Option Error`. -/
structure Error where
  message : String
  deriving DecidableEq, Repr

/-- A `context.Context`; the decorator only passes it on. -/
structure Context where
  id : Nat
  deriving DecidableEq, Repr

/-- A `yarpc.CallOption`; the decorator only passes it on. -/
structure CallOption where
  id : Nat
  deriving DecidableEq, Repr

/-! ## Package `strings` -/

namespace strings

/-- Go `strings.HasPrefix(s, p)`: `s` begins with `p`.  A Go string is read as the
sequence of its characters. -/
def HasPrefix (s p : String) : Bool :=
  p.toList.isPrefixOf s.toList

end strings

/-! ## Package `common` -/

namespace common

/-- Modelled from the spec: the constant `common.ReservedTaskListPrefix` is declared
outside `metricClient.go`; the spec calls it the reserved internal prefix of
child-partition names and gives `/__cadence_sys/child-42` as a name that carries it. -/
def ReservedTaskListPrefix : String := "/__cadence_sys/"

end common

/-! ## Package `types` -/

namespace types

/-- Modelled from the spec: `types.TaskList` is declared outside `metricClient.go`;
a task list is a named routing destination, and its name may be absent. -/
structure TaskList where
  Name : Option String
  deriving DecidableEq, Repr

/-- Modelled from the spec: the getter `(*TaskList).GetName`, declared outside
`metricClient.go`; it yields the name, and the empty string when the name is absent. -/
def TaskList.GetName (v : TaskList) : String :=
  v.Name.getD ""

/-- Modelled from the spec: request of `AddActivityTask`; it carries a forwarded-from
origin and a task-list pointer.  The fields the decorator never reads are one
uninterpreted `Body`. -/
structure AddActivityTaskRequest where
  ForwardedFrom : String
  TaskList : Option TaskList
  Body : String
  deriving DecidableEq, Repr

/-- Modelled from the spec: request of `AddDecisionTask`. -/
structure AddDecisionTaskRequest where
  ForwardedFrom : String
  TaskList : Option TaskList
  Body : String
  deriving DecidableEq, Repr

/-- Modelled from the spec: the nested poll sub-request of `PollForActivityTask`. -/
structure PollForActivityTaskRequest where
  TaskList : Option TaskList
  Body : String
  deriving DecidableEq, Repr

/-- Modelled from the spec: request of `PollForActivityTask`; the task list sits in a
nested sub-request that may be absent. -/
structure MatchingPollForActivityTaskRequest where
  ForwardedFrom : String
  PollRequest : Option PollForActivityTaskRequest
  Body : String
  deriving DecidableEq, Repr

/-- Modelled from the spec: the nested poll sub-request of `PollForDecisionTask`. -/
structure PollForDecisionTaskRequest where
  TaskList : Option TaskList
  Body : String
  deriving DecidableEq, Repr

/-- Modelled from the spec: request of `PollForDecisionTask`. -/
structure MatchingPollForDecisionTaskRequest where
  ForwardedFrom : String
  PollRequest : Option PollForDecisionTaskRequest
  Body : String
  deriving DecidableEq, Repr

/-- Modelled from the spec: request of `QueryWorkflow`. -/
structure MatchingQueryWorkflowRequest where
  ForwardedFrom : String
  TaskList : Option TaskList
  Body : String
  deriving DecidableEq, Repr

/-- Modelled from the spec: request of `RespondQueryTaskCompleted`.  The spec lets every
request type carry a forwarded-from origin and a task list, so both are present
here although the decorator reads neither. -/
structure MatchingRespondQueryTaskCompletedRequest where
  ForwardedFrom : String
  TaskList : Option TaskList
  Body : String
  deriving DecidableEq, Repr

/-- Modelled from the spec: request of `CancelOutstandingPoll` (see
`MatchingRespondQueryTaskCompletedRequest` for the two fields). -/
structure CancelOutstandingPollRequest where
  ForwardedFrom : String
  TaskList : Option TaskList
  Body : String
  deriving DecidableEq, Repr

/-- Modelled from the spec: request of `DescribeTaskList` (see
`MatchingRespondQueryTaskCompletedRequest` for the two fields). -/
structure MatchingDescribeTaskListRequest where
  ForwardedFrom : String
  TaskList : Option TaskList
  Body : String
  deriving DecidableEq, Repr

/-- Modelled from the spec: request of `ListTaskListPartitions` (see
`MatchingRespondQueryTaskCompletedRequest` for the two fields). -/
structure MatchingListTaskListPartitionsRequest where
  ForwardedFrom : String
  TaskList : Option TaskList
  Body : String
  deriving DecidableEq, Repr

/-- Modelled from the spec: the getter `(*AddActivityTaskRequest).GetForwardedFrom`, declared outside
`metricClient.go`; an absent origin, also that of a nil request, is the empty string. -/
def AddActivityTaskRequest.GetForwardedFrom : Option AddActivityTaskRequest → String
  | some v => v.ForwardedFrom
  | none => ""

/-- Modelled from the spec: the getter `(*AddDecisionTaskRequest).GetForwardedFrom`, declared outside
`metricClient.go`; an absent origin, also that of a nil request, is the empty string. -/
def AddDecisionTaskRequest.GetForwardedFrom : Option AddDecisionTaskRequest → String
  | some v => v.ForwardedFrom
  | none => ""

/-- Modelled from the spec: the getter `(*MatchingPollForActivityTaskRequest).GetForwardedFrom`, declared outside
`metricClient.go`; an absent origin, also that of a nil request, is the empty string. -/
def MatchingPollForActivityTaskRequest.GetForwardedFrom :
    Option MatchingPollForActivityTaskRequest → String
  | some v => v.ForwardedFrom
  | none => ""

/-- Modelled from the spec: the getter `(*MatchingPollForDecisionTaskRequest).GetForwardedFrom`, declared outside
`metricClient.go`; an absent origin, also that of a nil request, is the empty string. -/
def MatchingPollForDecisionTaskRequest.GetForwardedFrom :
    Option MatchingPollForDecisionTaskRequest → String
  | some v => v.ForwardedFrom
  | none => ""

/-- Modelled from the spec: the getter `(*MatchingQueryWorkflowRequest).GetForwardedFrom`, declared outside
`metricClient.go`; an absent origin, also that of a nil request, is the empty string. -/
def MatchingQueryWorkflowRequest.GetForwardedFrom :
    Option MatchingQueryWorkflowRequest → String
  | some v => v.ForwardedFrom
  | none => ""

/-- Modelled from the spec: `types.PollForActivityTaskResponse` is declared outside `metricClient.go`; the
decorator hands it back unread, so its content is one uninterpreted `Body`. -/
structure PollForActivityTaskResponse where
  Body : String
  deriving DecidableEq, Repr

/-- Modelled from the spec: `types.MatchingPollForDecisionTaskResponse` is declared outside `metricClient.go`; the
decorator hands it back unread, so its content is one uninterpreted `Body`. -/
structure MatchingPollForDecisionTaskResponse where
  Body : String
  deriving DecidableEq, Repr

/-- Modelled from the spec: `types.QueryWorkflowResponse` is declared outside `metricClient.go`; the
decorator hands it back unread, so its content is one uninterpreted `Body`. -/
structure QueryWorkflowResponse where
  Body : String
  deriving DecidableEq, Repr

/-- Modelled from the spec: `types.DescribeTaskListResponse` is declared outside `metricClient.go`; the
decorator hands it back unread, so its content is one uninterpreted `Body`. -/
structure DescribeTaskListResponse where
  Body : String
  deriving DecidableEq, Repr

/-- Modelled from the spec: `types.ListTaskListPartitionsResponse` is declared outside `metricClient.go`; the
decorator hands it back unread, so its content is one uninterpreted `Body`. -/
structure ListTaskListPartitionsResponse where
  Body : String
  deriving DecidableEq, Repr

end types

/-! ## The nine operations of the matching client interface -/

/-- The operations of the interface `matching.Client`, one per method. -/
inductive Operation where
  | AddActivityTask
  | AddDecisionTask
  | PollForActivityTask
  | PollForDecisionTask
  | QueryWorkflow
  | RespondQueryTaskCompleted
  | CancelOutstandingPoll
  | DescribeTaskList
  | ListTaskListPartitions
  deriving DecidableEq, Repr

/-- The request type of each operation (the method takes a pointer to it). -/
@[reducible] def Operation.Request : Operation → Type
  | .AddActivityTask => types.AddActivityTaskRequest
  | .AddDecisionTask => types.AddDecisionTaskRequest
  | .PollForActivityTask => types.MatchingPollForActivityTaskRequest
  | .PollForDecisionTask => types.MatchingPollForDecisionTaskRequest
  | .QueryWorkflow => types.MatchingQueryWorkflowRequest
  | .RespondQueryTaskCompleted => types.MatchingRespondQueryTaskCompletedRequest
  | .CancelOutstandingPoll => types.CancelOutstandingPollRequest
  | .DescribeTaskList => types.MatchingDescribeTaskListRequest
  | .ListTaskListPartitions => types.MatchingListTaskListPartitionsRequest

/-- What each operation returns: an error, or a response pointer and an error. -/
@[reducible] def Operation.Return : Operation → Type
  | .AddActivityTask => Option Error
  | .AddDecisionTask => Option Error
  | .PollForActivityTask => Option types.PollForActivityTaskResponse × Option Error
  | .PollForDecisionTask => Option types.MatchingPollForDecisionTaskResponse × Option Error
  | .QueryWorkflow => Option types.QueryWorkflowResponse × Option Error
  | .RespondQueryTaskCompleted => Option Error
  | .CancelOutstandingPoll => Option Error
  | .DescribeTaskList => Option types.DescribeTaskListResponse × Option Error
  | .ListTaskListPartitions => Option types.ListTaskListPartitionsResponse × Option Error

/-- The error component of what an operation returns. -/
def Operation.errorOf : (op : Operation) → op.Return → Option Error
  | .AddActivityTask, e => e
  | .AddDecisionTask, e => e
  | .PollForActivityTask, r => r.2
  | .PollForDecisionTask, r => r.2
  | .QueryWorkflow, r => r.2
  | .RespondQueryTaskCompleted, e => e
  | .CancelOutstandingPoll, e => e
  | .DescribeTaskList, r => r.2
  | .ListTaskListPartitions, r => r.2

/-! ## Package `metrics`: scopes, metric names, observable events -/

namespace metrics

/-- Modelled from the spec: the scope constants of package `metrics` are declared
outside `metricClient.go`; the spec has a fixed enumerated set, one scope per operation. -/
inductive Scope where
  | MatchingClientAddActivityTaskScope
  | MatchingClientAddDecisionTaskScope
  | MatchingClientPollForActivityTaskScope
  | MatchingClientPollForDecisionTaskScope
  | MatchingClientQueryWorkflowScope
  | MatchingClientRespondQueryTaskCompletedScope
  | MatchingClientCancelOutstandingPollScope
  | MatchingClientDescribeTaskListScope
  | MatchingClientListTaskListPartitionsScope
  deriving DecidableEq, Repr

/-- Modelled from the spec: the metric-name constants of package `metrics` are declared
outside `metricClient.go`; the spec has the kinds requests, latency (a timer),
failures, forwarded and invalid-task-list-name. -/
inductive Metric where
  | CadenceClientRequests
  | CadenceClientLatency
  | CadenceClientFailures
  | MatchingClientForwardedCounter
  | MatchingClientInvalidTaskListName
  deriving DecidableEq, Repr

end metrics

open metrics in
/-- One observable step of a call: a counter increment, a timer start, a timer stop,
or the call of an inner-client operation with its context, request pointer and options. -/
inductive Event where
  | IncCounter (scope : Scope) (counter : Metric)
  | StartTimer (scope : Scope) (timer : Metric)
  | Stop (scope : Scope) (timer : Metric)
  | Call (op : Operation) (ctx : Context) (request : Option op.Request) (opts : List CallOption)

/-- The state a call runs in: the events so far, oldest first, and the inner client's state. -/
structure World (σ : Type) where
  trace : List Event
  inner : σ

/-- A Go computation over the world: it returns a value or panics. -/
def Exec (σ α : Type) : Type := World σ → Outcome (World σ) α

/-- Return a value and leave the world as it is. -/
def Exec.pure {σ α : Type} (a : α) : Exec σ α :=
  fun w => .returned a w

/-- Run `x`, then `f` on its value; a panic of `x` ends the computation. -/
def Exec.bind {σ α β : Type} (x : Exec σ α) (f : α → Exec σ β) : Exec σ β :=
  fun w =>
    match x w with
    | .returned a w' => f a w'
    | .panicked p w' => .panicked p w'

instance (σ : Type) : Monad (Exec σ) where
  pure := Exec.pure
  bind := Exec.bind

/-- Append one event to the log. -/
def emit {σ : Type} (e : Event) : Exec σ Unit :=
  fun w => .returned () { w with trace := w.trace ++ [e] }

/-- Follow a pointer to read a field: a `nil` pointer panics. -/
def deref {σ α : Type} : Option α → Exec σ α
  | some v => Exec.pure v
  | none => fun w => .panicked .nilPointerDereference w

namespace metrics

/-- The handle returned by `StartTimer`; it remembers which timer it stops. -/
structure Stopwatch where
  scope : Scope
  timer : Metric
  deriving DecidableEq, Repr

/-- The metrics sink `metrics.Client`, an external collaborator: every emission is
recorded in the event log, and the sink never fails. -/
structure Client where
  deriving Repr

/-- The method `IncCounter(scope, counter)` of the sink. -/
def Client.IncCounter {σ : Type} (_ : Client) (scope : Scope) (counter : Metric) : Exec σ Unit :=
  emit (.IncCounter scope counter)

/-- The method `StartTimer(scope, timer)` of the sink. -/
def Client.StartTimer {σ : Type} (_ : Client) (scope : Scope) (timer : Metric) :
    Exec σ Stopwatch :=
  fun w => .returned ⟨scope, timer⟩ { w with trace := w.trace ++ [.StartTimer scope timer] }

/-- The method `Stop()` of a stopwatch. -/
def Stopwatch.Stop {σ : Type} (sw : Stopwatch) : Exec σ Unit :=
  emit (.Stop sw.scope sw.timer)

end metrics

/-! ## Package `matching`: the client interface and the decorator -/

namespace matching

/-- A method of the inner client: from context, request pointer and options it takes the
client's state to a returned value or a panic. -/
abbrev Method (σ : Type) (op : Operation) : Type :=
  Context → Option op.Request → List CallOption → σ → Outcome σ op.Return

/-- The interface `matching.Client`, here the inner client with state `σ`. -/
structure Client (σ : Type) where
  AddActivityTask : Method σ .AddActivityTask
  AddDecisionTask : Method σ .AddDecisionTask
  PollForActivityTask : Method σ .PollForActivityTask
  PollForDecisionTask : Method σ .PollForDecisionTask
  QueryWorkflow : Method σ .QueryWorkflow
  RespondQueryTaskCompleted : Method σ .RespondQueryTaskCompleted
  CancelOutstandingPoll : Method σ .CancelOutstandingPoll
  DescribeTaskList : Method σ .DescribeTaskList
  ListTaskListPartitions : Method σ .ListTaskListPartitions

/-- The method of the inner client that bears the operation's name. -/
def Client.method {σ : Type} (cl : Client σ) : (op : Operation) → Method σ op
  | .AddActivityTask => cl.AddActivityTask
  | .AddDecisionTask => cl.AddDecisionTask
  | .PollForActivityTask => cl.PollForActivityTask
  | .PollForDecisionTask => cl.PollForDecisionTask
  | .QueryWorkflow => cl.QueryWorkflow
  | .RespondQueryTaskCompleted => cl.RespondQueryTaskCompleted
  | .CancelOutstandingPoll => cl.CancelOutstandingPoll
  | .DescribeTaskList => cl.DescribeTaskList
  | .ListTaskListPartitions => cl.ListTaskListPartitions

/-- Call a method of the inner client: the call is logged, then the method runs once on
the inner client's state. -/
def invoke {σ : Type} (op : Operation) (m : Method σ op) (ctx : Context)
    (request : Option op.Request) (opts : List CallOption) : Exec σ op.Return :=
  fun w =>
    let t := w.trace ++ [Event.Call op ctx request opts]
    match m ctx request opts w.inner with
    | .returned r s => .returned r { trace := t, inner := s }
    | .panicked p s => .panicked p { trace := t, inner := s }

/-- The decorator: an inner client and a metrics sink. -/
structure metricClient (σ : Type) where
  client : Client σ
  metricsClient : metrics.Client

/-- The constructor `NewMetricClient`. -/
def NewMetricClient {σ : Type} (client : Client σ) (metricsClient : metrics.Client) :
    metricClient σ :=
  { client := client, metricsClient := metricsClient }

open metrics

/-- The helper `emitForwardedFromStats`. -/
def metricClient.emitForwardedFromStats {σ : Type} (c : metricClient σ) (scope : Scope)
    (forwardedFrom : String) (taskList : Option types.TaskList) : Exec σ Unit :=
  match taskList with
  | none => pure ()
  | some tl =>
    let isChildPartition := strings.HasPrefix tl.GetName common.ReservedTaskListPrefix
    if forwardedFrom ≠ "" then
      c.metricsClient.IncCounter scope .MatchingClientForwardedCounter
    else if isChildPartition then
      c.metricsClient.IncCounter scope .MatchingClientInvalidTaskListName
    else
      pure ()

/-- The method `AddActivityTask` of the decorator. -/
def metricClient.AddActivityTask {σ : Type} (c : metricClient σ) (ctx : Context)
    (request : Option types.AddActivityTaskRequest) (opts : List CallOption) :
    Exec σ (Option Error) := do
  c.metricsClient.IncCounter .MatchingClientAddActivityTaskScope .CadenceClientRequests
  let sw ← c.metricsClient.StartTimer .MatchingClientAddActivityTaskScope .CadenceClientLatency
  let forwardedFrom := types.AddActivityTaskRequest.GetForwardedFrom request
  let taskList := (← deref request).TaskList
  c.emitForwardedFromStats .MatchingClientAddActivityTaskScope forwardedFrom taskList
  let err ← invoke .AddActivityTask c.client.AddActivityTask ctx request opts
  sw.Stop
  if err ≠ none then
    c.metricsClient.IncCounter .MatchingClientAddActivityTaskScope .CadenceClientFailures
  return err

/-- The method `AddDecisionTask` of the decorator. -/
def metricClient.AddDecisionTask {σ : Type} (c : metricClient σ) (ctx : Context)
    (request : Option types.AddDecisionTaskRequest) (opts : List CallOption) :
    Exec σ (Option Error) := do
  c.metricsClient.IncCounter .MatchingClientAddDecisionTaskScope .CadenceClientRequests
  let sw ← c.metricsClient.StartTimer .MatchingClientAddDecisionTaskScope .CadenceClientLatency
  let forwardedFrom := types.AddDecisionTaskRequest.GetForwardedFrom request
  let taskList := (← deref request).TaskList
  c.emitForwardedFromStats .MatchingClientAddDecisionTaskScope forwardedFrom taskList
  let err ← invoke .AddDecisionTask c.client.AddDecisionTask ctx request opts
  sw.Stop
  if err ≠ none then
    c.metricsClient.IncCounter .MatchingClientAddDecisionTaskScope .CadenceClientFailures
  return err

/-- The method `PollForActivityTask` of the decorator. -/
def metricClient.PollForActivityTask {σ : Type} (c : metricClient σ) (ctx : Context)
    (request : Option types.MatchingPollForActivityTaskRequest) (opts : List CallOption) :
    Exec σ (Option types.PollForActivityTaskResponse × Option Error) := do
  c.metricsClient.IncCounter .MatchingClientPollForActivityTaskScope .CadenceClientRequests
  let sw ← c.metricsClient.StartTimer .MatchingClientPollForActivityTaskScope .CadenceClientLatency
  let pollRequest := (← deref request).PollRequest
  if pollRequest ≠ none then
    let forwardedFrom := types.MatchingPollForActivityTaskRequest.GetForwardedFrom request
    let taskList := (← deref pollRequest).TaskList
    c.emitForwardedFromStats .MatchingClientPollForActivityTaskScope forwardedFrom taskList
  let (resp, err) ← invoke .PollForActivityTask c.client.PollForActivityTask ctx request opts
  sw.Stop
  if err ≠ none then
    c.metricsClient.IncCounter .MatchingClientPollForActivityTaskScope .CadenceClientFailures
  return (resp, err)

/-- The method `PollForDecisionTask` of the decorator. -/
def metricClient.PollForDecisionTask {σ : Type} (c : metricClient σ) (ctx : Context)
    (request : Option types.MatchingPollForDecisionTaskRequest) (opts : List CallOption) :
    Exec σ (Option types.MatchingPollForDecisionTaskResponse × Option Error) := do
  c.metricsClient.IncCounter .MatchingClientPollForDecisionTaskScope .CadenceClientRequests
  let sw ← c.metricsClient.StartTimer .MatchingClientPollForDecisionTaskScope .CadenceClientLatency
  let pollRequest := (← deref request).PollRequest
  if pollRequest ≠ none then
    let forwardedFrom := types.MatchingPollForDecisionTaskRequest.GetForwardedFrom request
    let taskList := (← deref pollRequest).TaskList
    c.emitForwardedFromStats .MatchingClientPollForDecisionTaskScope forwardedFrom taskList
  let (resp, err) ← invoke .PollForDecisionTask c.client.PollForDecisionTask ctx request opts
  sw.Stop
  if err ≠ none then
    c.metricsClient.IncCounter .MatchingClientPollForDecisionTaskScope .CadenceClientFailures
  return (resp, err)

/-- The method `QueryWorkflow` of the decorator. -/
def metricClient.QueryWorkflow {σ : Type} (c : metricClient σ) (ctx : Context)
    (request : Option types.MatchingQueryWorkflowRequest) (opts : List CallOption) :
    Exec σ (Option types.QueryWorkflowResponse × Option Error) := do
  c.metricsClient.IncCounter .MatchingClientQueryWorkflowScope .CadenceClientRequests
  let sw ← c.metricsClient.StartTimer .MatchingClientQueryWorkflowScope .CadenceClientLatency
  let forwardedFrom := types.MatchingQueryWorkflowRequest.GetForwardedFrom request
  let taskList := (← deref request).TaskList
  c.emitForwardedFromStats .MatchingClientQueryWorkflowScope forwardedFrom taskList
  let (resp, err) ← invoke .QueryWorkflow c.client.QueryWorkflow ctx request opts
  sw.Stop
  if err ≠ none then
    c.metricsClient.IncCounter .MatchingClientQueryWorkflowScope .CadenceClientFailures
  return (resp, err)

/-- The method `RespondQueryTaskCompleted` of the decorator. -/
def metricClient.RespondQueryTaskCompleted {σ : Type} (c : metricClient σ) (ctx : Context)
    (request : Option types.MatchingRespondQueryTaskCompletedRequest) (opts : List CallOption) :
    Exec σ (Option Error) := do
  c.metricsClient.IncCounter .MatchingClientRespondQueryTaskCompletedScope .CadenceClientRequests
  let sw ← c.metricsClient.StartTimer .MatchingClientRespondQueryTaskCompletedScope .CadenceClientLatency
  let err ← invoke .RespondQueryTaskCompleted c.client.RespondQueryTaskCompleted ctx request opts
  sw.Stop
  if err ≠ none then
    c.metricsClient.IncCounter .MatchingClientRespondQueryTaskCompletedScope .CadenceClientFailures
  return err

/-- The method `CancelOutstandingPoll` of the decorator. -/
def metricClient.CancelOutstandingPoll {σ : Type} (c : metricClient σ) (ctx : Context)
    (request : Option types.CancelOutstandingPollRequest) (opts : List CallOption) :
    Exec σ (Option Error) := do
  c.metricsClient.IncCounter .MatchingClientCancelOutstandingPollScope .CadenceClientRequests
  let sw ← c.metricsClient.StartTimer .MatchingClientCancelOutstandingPollScope .CadenceClientLatency
  let err ← invoke .CancelOutstandingPoll c.client.CancelOutstandingPoll ctx request opts
  sw.Stop
  if err ≠ none then
    c.metricsClient.IncCounter .MatchingClientCancelOutstandingPollScope .CadenceClientFailures
  return err

/-- The method `DescribeTaskList` of the decorator. -/
def metricClient.DescribeTaskList {σ : Type} (c : metricClient σ) (ctx : Context)
    (request : Option types.MatchingDescribeTaskListRequest) (opts : List CallOption) :
    Exec σ (Option types.DescribeTaskListResponse × Option Error) := do
  c.metricsClient.IncCounter .MatchingClientDescribeTaskListScope .CadenceClientRequests
  let sw ← c.metricsClient.StartTimer .MatchingClientDescribeTaskListScope .CadenceClientLatency
  let (resp, err) ← invoke .DescribeTaskList c.client.DescribeTaskList ctx request opts
  sw.Stop
  if err ≠ none then
    c.metricsClient.IncCounter .MatchingClientDescribeTaskListScope .CadenceClientFailures
  return (resp, err)

/-- The method `ListTaskListPartitions` of the decorator. -/
def metricClient.ListTaskListPartitions {σ : Type} (c : metricClient σ) (ctx : Context)
    (request : Option types.MatchingListTaskListPartitionsRequest) (opts : List CallOption) :
    Exec σ (Option types.ListTaskListPartitionsResponse × Option Error) := do
  c.metricsClient.IncCounter .MatchingClientListTaskListPartitionsScope .CadenceClientRequests
  let sw ← c.metricsClient.StartTimer .MatchingClientListTaskListPartitionsScope .CadenceClientLatency
  let (resp, err) ← invoke .ListTaskListPartitions c.client.ListTaskListPartitions ctx request opts
  sw.Stop
  if err ≠ none then
    c.metricsClient.IncCounter .MatchingClientListTaskListPartitionsScope .CadenceClientFailures
  return (resp, err)

/-- One call to the decorator: the method that bears the operation's name. -/
def metricClient.call {σ : Type} (c : metricClient σ) :
    (op : Operation) → Context → Option op.Request → List CallOption → Exec σ op.Return
  | .AddActivityTask => c.AddActivityTask
  | .AddDecisionTask => c.AddDecisionTask
  | .PollForActivityTask => c.PollForActivityTask
  | .PollForDecisionTask => c.PollForDecisionTask
  | .QueryWorkflow => c.QueryWorkflow
  | .RespondQueryTaskCompleted => c.RespondQueryTaskCompleted
  | .CancelOutstandingPoll => c.CancelOutstandingPoll
  | .DescribeTaskList => c.DescribeTaskList
  | .ListTaskListPartitions => c.ListTaskListPartitions

end matching

/-- The scope in which each operation of the decorator emits its metrics. -/
def Operation.scope : Operation → metrics.Scope
  | .AddActivityTask => .MatchingClientAddActivityTaskScope
  | .AddDecisionTask => .MatchingClientAddDecisionTaskScope
  | .PollForActivityTask => .MatchingClientPollForActivityTaskScope
  | .PollForDecisionTask => .MatchingClientPollForDecisionTaskScope
  | .QueryWorkflow => .MatchingClientQueryWorkflowScope
  | .RespondQueryTaskCompleted => .MatchingClientRespondQueryTaskCompletedScope
  | .CancelOutstandingPoll => .MatchingClientCancelOutstandingPollScope
  | .DescribeTaskList => .MatchingClientDescribeTaskListScope
  | .ListTaskListPartitions => .MatchingClientListTaskListPartitionsScope

/-! ## Reading the event log -/

open metrics

/-- The event is an increment of `counter` in `scope`. -/
def Event.isInc (scope : Scope) (counter : Metric) : Event → Bool
  | .IncCounter s k => decide (s = scope ∧ k = counter)
  | _ => false

/-- The event is a start of `timer` in `scope`. -/
def Event.isStart (scope : Scope) (timer : Metric) : Event → Bool
  | .StartTimer s k => decide (s = scope ∧ k = timer)
  | _ => false

/-- The event is a stop of `timer` in `scope`. -/
def Event.isStop (scope : Scope) (timer : Metric) : Event → Bool
  | .Stop s k => decide (s = scope ∧ k = timer)
  | _ => false

/-- The event is a call of the inner client. -/
def Event.isCall : Event → Bool
  | .Call _ _ _ _ => true
  | _ => false

/-- The event is a counter increment, of any counter in any scope. -/
def Event.isCounter : Event → Bool
  | .IncCounter _ _ => true
  | _ => false

/-- How often `counter` is incremented in `scope` within the events. -/
def increments (scope : Scope) (counter : Metric) (evs : List Event) : Nat :=
  evs.countP (Event.isInc scope counter)

/-- How often `timer` is started in `scope` within the events. -/
def timerStarts (scope : Scope) (timer : Metric) (evs : List Event) : Nat :=
  evs.countP (Event.isStart scope timer)

/-- How often `timer` is stopped in `scope` within the events. -/
def timerStops (scope : Scope) (timer : Metric) (evs : List Event) : Nat :=
  evs.countP (Event.isStop scope timer)

/-- How often the inner client is called within the events. -/
def innerCalls (evs : List Event) : Nat :=
  evs.countP Event.isCall

/-- The events of the forwarding-diagnostics step, as a function of its arguments. -/
def forwardingEvents (scope : Scope) (forwardedFrom : String) :
    Option types.TaskList → List Event
  | none => []
  | some tl =>
    if forwardedFrom ≠ "" then [.IncCounter scope .MatchingClientForwardedCounter]
    else if strings.HasPrefix tl.GetName common.ReservedTaskListPrefix then
      [.IncCounter scope .MatchingClientInvalidTaskListName]
    else []

/-- The task-list pointer the decorator hands to the forwarding-diagnostics step, if it
runs the step at all: `request.TaskList`, or `request.PollRequest.TaskList` behind a
present `PollRequest`. -/
def Operation.taskListOf : (op : Operation) → op.Request → Option types.TaskList
  | .AddActivityTask, r => r.TaskList
  | .AddDecisionTask, r => r.TaskList
  | .PollForActivityTask, r => r.PollRequest.bind (fun p => p.TaskList)
  | .PollForDecisionTask, r => r.PollRequest.bind (fun p => p.TaskList)
  | .QueryWorkflow, r => r.TaskList
  | .RespondQueryTaskCompleted, _ => none
  | .CancelOutstandingPoll, _ => none
  | .DescribeTaskList, _ => none
  | .ListTaskListPartitions, _ => none

/-- The forwarded-from origin of a request. -/
def Operation.forwardedFromOf : (op : Operation) → op.Request → String
  | .AddActivityTask, r => r.ForwardedFrom
  | .AddDecisionTask, r => r.ForwardedFrom
  | .PollForActivityTask, r => r.ForwardedFrom
  | .PollForDecisionTask, r => r.ForwardedFrom
  | .QueryWorkflow, r => r.ForwardedFrom
  | .RespondQueryTaskCompleted, r => r.ForwardedFrom
  | .CancelOutstandingPoll, r => r.ForwardedFrom
  | .DescribeTaskList, r => r.ForwardedFrom
  | .ListTaskListPartitions, r => r.ForwardedFrom

/-- The events a call emits before it reaches the inner client. -/
def eventsBefore (op : Operation) (r : op.Request) : List Event :=
  .IncCounter op.scope .CadenceClientRequests :: .StartTimer op.scope .CadenceClientLatency ::
    forwardingEvents op.scope (op.forwardedFromOf r) (op.taskListOf r)

/-- The events a call emits after the inner client returned. -/
def eventsAfter (op : Operation) (ret : op.Return) : List Event :=
  .Stop op.scope .CadenceClientLatency ::
    (if op.errorOf ret ≠ none then [.IncCounter op.scope .CadenceClientFailures] else [])

/-- The events of one call with a present request whose inner call returned `ret`. -/
def callEvents (op : Operation) (ctx : Context) (r : op.Request) (opts : List CallOption)
    (ret : op.Return) : List Event :=
  eventsBefore op r ++ Event.Call op ctx (some r) opts :: eventsAfter op ret

/-- The operations whose decorator method reads the request to run the
forwarding-diagnostics step. -/
def Operation.hasForwardingStep : Operation → Bool
  | .AddActivityTask => true
  | .AddDecisionTask => true
  | .PollForActivityTask => true
  | .PollForDecisionTask => true
  | .QueryWorkflow => true
  | .RespondQueryTaskCompleted => false
  | .CancelOutstandingPoll => false
  | .DescribeTaskList => false
  | .ListTaskListPartitions => false

/-- The request is a poll request whose nested `PollRequest` is nil. -/
def Operation.pollRequestAbsent : (op : Operation) → op.Request → Bool
  | .PollForActivityTask, r => r.PollRequest.isNone
  | .PollForDecisionTask, r => r.PollRequest.isNone
  | .AddActivityTask, _ => false
  | .AddDecisionTask, _ => false
  | .QueryWorkflow, _ => false
  | .RespondQueryTaskCompleted, _ => false
  | .CancelOutstandingPoll, _ => false
  | .DescribeTaskList, _ => false
  | .ListTaskListPartitions, _ => false

/-- The event is a timer start, of any timer in any scope. -/
def Event.isTimerStart : Event → Bool
  | .StartTimer _ _ => true
  | _ => false

/-- The event is a timer stop, of any timer in any scope. -/
def Event.isTimerStop : Event → Bool
  | .Stop _ _ => true
  | _ => false

/-- The events strictly between the first timer start and the timer stop that follows it. -/
def whileTimerRuns (evs : List Event) : List Event :=
  ((evs.dropWhile (fun e => !e.isTimerStart)).drop 1).takeWhile (fun e => !e.isTimerStop)

/-- The state a call leaves, whether it returned or panicked. -/
def Outcome.finalState {ω α : Type} : Outcome ω α → ω
  | .returned _ s => s
  | .panicked _ s => s

/-- The events a computation adds to the log when run in `w`. -/
def emittedBy {σ α : Type} (x : Exec σ α) (w : World σ) : List Event :=
  (x w).finalState.trace.drop w.trace.length

/-! ## Sample collaborators and inputs -/

/-- An inner client that counts the calls it receives and always succeeds. -/
def succeedingClient : matching.Client Nat where
  AddActivityTask := fun _ _ _ n => .returned none (n + 1)
  AddDecisionTask := fun _ _ _ n => .returned none (n + 1)
  PollForActivityTask := fun _ _ _ n => .returned (some ⟨"activity"⟩, none) (n + 1)
  PollForDecisionTask := fun _ _ _ n => .returned (some ⟨"decision"⟩, none) (n + 1)
  QueryWorkflow := fun _ _ _ n => .returned (some ⟨"answer"⟩, none) (n + 1)
  RespondQueryTaskCompleted := fun _ _ _ n => .returned none (n + 1)
  CancelOutstandingPoll := fun _ _ _ n => .returned none (n + 1)
  DescribeTaskList := fun _ _ _ n => .returned (some ⟨"description"⟩, none) (n + 1)
  ListTaskListPartitions := fun _ _ _ n => .returned (some ⟨"partitions"⟩, none) (n + 1)

/-- An inner client that counts the calls it receives and fails every one of them. -/
def failingClient : matching.Client Nat where
  AddActivityTask := fun _ _ _ n => .returned (some ⟨"unavailable"⟩) (n + 1)
  AddDecisionTask := fun _ _ _ n => .returned (some ⟨"unavailable"⟩) (n + 1)
  PollForActivityTask := fun _ _ _ n => .returned (none, some ⟨"unavailable"⟩) (n + 1)
  PollForDecisionTask := fun _ _ _ n => .returned (none, some ⟨"unavailable"⟩) (n + 1)
  QueryWorkflow := fun _ _ _ n => .returned (none, some ⟨"unavailable"⟩) (n + 1)
  RespondQueryTaskCompleted := fun _ _ _ n => .returned (some ⟨"unavailable"⟩) (n + 1)
  CancelOutstandingPoll := fun _ _ _ n => .returned (some ⟨"unavailable"⟩) (n + 1)
  DescribeTaskList := fun _ _ _ n => .returned (none, some ⟨"unavailable"⟩) (n + 1)
  ListTaskListPartitions := fun _ _ _ n => .returned (none, some ⟨"unavailable"⟩) (n + 1)

/-- A decorator around the succeeding client. -/
def succeedingDecorator : matching.metricClient Nat :=
  matching.NewMetricClient succeedingClient {}

/-- A decorator around the failing client. -/
def failingDecorator : matching.metricClient Nat :=
  matching.NewMetricClient failingClient {}

/-- A world with an empty log and an inner client that has seen no call. -/
def freshWorld : World Nat :=
  { trace := [], inner := 0 }

/-- A sample call context. -/
def sampleContext : Context := ⟨7⟩

/-- A sample list of call options. -/
def sampleOptions : List CallOption := [⟨1⟩, ⟨2⟩]

/-- The poll request of the end-to-end example of the spec: a child-partition name,
not forwarded. -/
def childPartitionPoll : types.MatchingPollForActivityTaskRequest :=
  { ForwardedFrom := "",
    PollRequest := some { TaskList := some { Name := some "/__cadence_sys/child-42" }, Body := "" },
    Body := "" }

/-- A poll request whose task list has no name. -/
def namelessPoll : types.MatchingPollForActivityTaskRequest :=
  { ForwardedFrom := "",
    PollRequest := some { TaskList := some { Name := none }, Body := "" },
    Body := "" }

/-- A poll request without its nested `PollRequest`. -/
def emptyPoll : types.MatchingPollForDecisionTaskRequest :=
  { ForwardedFrom := "/__cadence_sys/orders/1", PollRequest := none, Body := "" }

/-- A forwarded add-activity request. -/
def forwardedAdd : types.AddActivityTaskRequest :=
  { ForwardedFrom := "/__cadence_sys/orders/1", TaskList := some { Name := some "orders" },
    Body := "" }

/-- A query request on an ordinary task list, not forwarded. -/
def plainQuery : types.MatchingQueryWorkflowRequest :=
  { ForwardedFrom := "", TaskList := some { Name := some "orders" }, Body := "" }

/-- A describe request that carries a task list and a forwarded-from origin. -/
def forwardedDescribe : types.MatchingDescribeTaskListRequest :=
  { ForwardedFrom := "/__cadence_sys/orders/1", TaskList := some { Name := some "orders" },
    Body := "" }

/-! ## What one call does -/

theorem forwardingEvents_none (scope : Scope) (forwardedFrom : String) :
    forwardingEvents scope forwardedFrom none = [] := rfl

theorem emitForwardedFromStats_eq {σ : Type} (c : matching.metricClient σ) (scope : Scope)
    (forwardedFrom : String) (taskList : Option types.TaskList) (w : World σ) :
    c.emitForwardedFromStats scope forwardedFrom taskList w =
      .returned () { w with trace := w.trace ++ forwardingEvents scope forwardedFrom taskList } := by
  cases taskList with
  | none => simp [matching.metricClient.emitForwardedFromStats, forwardingEvents, pure, Exec.pure]
  | some tl =>
    simp only [matching.metricClient.emitForwardedFromStats, forwardingEvents]
    split_ifs <;> simp [metrics.Client.IncCounter, emit, pure, Exec.pure]

/-- One call with a present request: the events before the inner call, the inner call,
and, when the inner client returns, the events after it and the value it returned. -/
theorem call_some {σ : Type} (c : matching.metricClient σ) (op : Operation) (ctx : Context)
    (r : op.Request) (opts : List CallOption) (w : World σ) :
    c.call op ctx (some r) opts w =
      match c.client.method op ctx (some r) opts w.inner with
      | .returned ret s =>
        .returned ret
          { trace := w.trace ++ (eventsBefore op r ++
              Event.Call op ctx (some r) opts :: eventsAfter op ret), inner := s }
      | .panicked p s =>
        .panicked p
          { trace := w.trace ++ (eventsBefore op r ++ [Event.Call op ctx (some r) opts]),
            inner := s } := by
  generalize ho : c.client.method op ctx (some r) opts w.inner = o
  cases op <;> simp only [matching.Client.method] at ho <;>
    (try cases hp : r.PollRequest) <;>
    cases o <;>
    simp [*, matching.metricClient.call, matching.metricClient.AddActivityTask,
      matching.metricClient.AddDecisionTask, matching.metricClient.PollForActivityTask,
      matching.metricClient.PollForDecisionTask, matching.metricClient.QueryWorkflow,
      matching.metricClient.RespondQueryTaskCompleted,
      matching.metricClient.CancelOutstandingPoll, matching.metricClient.DescribeTaskList,
      matching.metricClient.ListTaskListPartitions, bind, Exec.bind,
      metrics.Client.IncCounter, metrics.Client.StartTimer, metrics.Stopwatch.Stop, emit, deref,
      Exec.pure, pure, emitForwardedFromStats_eq, matching.invoke,
      types.AddActivityTaskRequest.GetForwardedFrom, types.AddDecisionTaskRequest.GetForwardedFrom,
      types.MatchingPollForActivityTaskRequest.GetForwardedFrom,
      types.MatchingPollForDecisionTaskRequest.GetForwardedFrom,
      types.MatchingQueryWorkflowRequest.GetForwardedFrom, eventsBefore, eventsAfter,
      Operation.scope, Operation.errorOf, Operation.forwardedFromOf, Operation.taskListOf,
      forwardingEvents_none] <;>
    split_ifs <;> simp [Exec.bind, Exec.pure, emit]


/-- One call with a present request whose inner call returns. -/
theorem call_returned {σ : Type} (c : matching.metricClient σ) (op : Operation) (ctx : Context)
    (r : op.Request) (opts : List CallOption) (w : World σ) (ret : op.Return) (s : σ)
    (h : c.client.method op ctx (some r) opts w.inner = .returned ret s) :
    c.call op ctx (some r) opts w =
      .returned ret { trace := w.trace ++ callEvents op ctx r opts ret, inner := s } := by
  rw [call_some, h, callEvents]

/-- One call with a nil request, for an operation without forwarding step. -/
theorem call_none_passes {σ : Type} (c : matching.metricClient σ) (op : Operation)
    (ctx : Context) (opts : List CallOption) (w : World σ)
    (hop : op.hasForwardingStep = false) :
    c.call op ctx none opts w =
      match c.client.method op ctx none opts w.inner with
      | .returned ret s =>
        .returned ret
          { trace := w.trace ++ (.IncCounter op.scope .CadenceClientRequests ::
              .StartTimer op.scope .CadenceClientLatency :: Event.Call op ctx none opts ::
              eventsAfter op ret), inner := s }
      | .panicked p s =>
        .panicked p
          { trace := w.trace ++ [.IncCounter op.scope .CadenceClientRequests,
              .StartTimer op.scope .CadenceClientLatency, Event.Call op ctx none opts],
            inner := s } := by
  generalize ho : c.client.method op ctx none opts w.inner = o
  cases op <;> simp only [matching.Client.method] at ho <;>
    simp [Operation.hasForwardingStep] at hop <;>
    cases o <;>
    simp [*, matching.metricClient.call, matching.metricClient.RespondQueryTaskCompleted,
      matching.metricClient.CancelOutstandingPoll, matching.metricClient.DescribeTaskList,
      matching.metricClient.ListTaskListPartitions, bind, Exec.bind,
      metrics.Client.IncCounter, metrics.Client.StartTimer, metrics.Stopwatch.Stop, emit,
      Exec.pure, pure, matching.invoke, eventsAfter, Operation.scope, Operation.errorOf] <;>
    split_ifs <;> simp [Exec.bind, Exec.pure, emit]

/-- One call with a nil request, for an operation with forwarding step: reading the
request panics before the inner client is reached. -/
theorem call_none_panics {σ : Type} (c : matching.metricClient σ) (op : Operation)
    (ctx : Context) (opts : List CallOption) (w : World σ)
    (hop : op.hasForwardingStep = true) :
    c.call op ctx none opts w =
      .panicked .nilPointerDereference
        { trace := w.trace ++ [.IncCounter op.scope .CadenceClientRequests,
            .StartTimer op.scope .CadenceClientLatency], inner := w.inner } := by
  cases op <;> simp [Operation.hasForwardingStep] at hop <;>
    simp [matching.metricClient.call, matching.metricClient.AddActivityTask,
      matching.metricClient.AddDecisionTask, matching.metricClient.PollForActivityTask,
      matching.metricClient.PollForDecisionTask, matching.metricClient.QueryWorkflow,
      bind, Exec.bind, metrics.Client.IncCounter, metrics.Client.StartTimer, emit, deref,
      Operation.scope]

theorem scope_eq_iff (op' op : Operation) : op'.scope = op.scope ↔ op' = op := by
  cases op' <;> cases op <;> simp [Operation.scope]

theorem forwardingEvents_length (scope : Scope) (forwardedFrom : String)
    (taskList : Option types.TaskList) :
    (forwardingEvents scope forwardedFrom taskList).length ≤ 1 := by
  cases taskList with
  | none => simp [forwardingEvents]
  | some tl => simp only [forwardingEvents]; split_ifs <;> simp

theorem forwardingEvents_mem (scope : Scope) (forwardedFrom : String)
    (taskList : Option types.TaskList) (e : Event)
    (he : e ∈ forwardingEvents scope forwardedFrom taskList) :
    e = .IncCounter scope .MatchingClientForwardedCounter ∨
      e = .IncCounter scope .MatchingClientInvalidTaskListName := by
  cases taskList with
  | none => simp [forwardingEvents] at he
  | some tl =>
    simp only [forwardingEvents] at he
    split_ifs at he <;> simp at he <;> simp [he]

theorem innerCalls_forwardingEvents (scope : Scope) (forwardedFrom : String)
    (taskList : Option types.TaskList) :
    innerCalls (forwardingEvents scope forwardedFrom taskList) = 0 := by
  cases taskList with
  | none => simp [forwardingEvents, innerCalls]
  | some tl =>
    simp only [forwardingEvents]
    split_ifs <;> simp [innerCalls, Event.isCall]

theorem increments_forwardingEvents (sc scope : Scope) (k : Metric) (forwardedFrom : String)
    (taskList : Option types.TaskList)
    (hf : k ≠ .MatchingClientForwardedCounter) (hi : k ≠ .MatchingClientInvalidTaskListName) :
    increments sc k (forwardingEvents scope forwardedFrom taskList) = 0 := by
  cases taskList with
  | none => simp [forwardingEvents, increments]
  | some tl =>
    simp only [forwardingEvents]
    split_ifs <;> simp [increments, Event.isInc, Ne.symm hf, Ne.symm hi]

theorem forwarded_forwardingEvents (sc scope : Scope) (forwardedFrom : String)
    (taskList : Option types.TaskList) :
    increments sc .MatchingClientForwardedCounter
        (forwardingEvents scope forwardedFrom taskList) =
      if sc = scope ∧ taskList ≠ none ∧ forwardedFrom ≠ "" then 1 else 0 := by
  cases taskList with
  | none => simp [forwardingEvents, increments]
  | some tl =>
    simp only [forwardingEvents]
    by_cases hff : forwardedFrom = ""
    · simp only [hff, ne_eq, not_true_eq_false, and_false, if_false]
      split_ifs <;> simp [increments, Event.isInc]
    · by_cases hsc : sc = scope <;> simp [hff, hsc, increments, Event.isInc, eq_comm]

theorem invalid_forwardingEvents (sc scope : Scope) (forwardedFrom : String)
    (tl : types.TaskList) :
    increments sc .MatchingClientInvalidTaskListName
        (forwardingEvents scope forwardedFrom (some tl)) =
      if sc = scope ∧ forwardedFrom = "" ∧
          strings.HasPrefix tl.GetName common.ReservedTaskListPrefix = true then 1 else 0 := by
  simp only [forwardingEvents]
  by_cases hff : forwardedFrom = ""
  · by_cases hp : strings.HasPrefix tl.GetName common.ReservedTaskListPrefix = true <;>
      by_cases hsc : sc = scope <;> simp [hff, hp, hsc, increments, Event.isInc, eq_comm]
  · simp [hff, increments, Event.isInc]

theorem timerStarts_forwardingEvents (sc scope : Scope) (k : Metric) (forwardedFrom : String)
    (taskList : Option types.TaskList) :
    timerStarts sc k (forwardingEvents scope forwardedFrom taskList) = 0 := by
  cases taskList with
  | none => simp [forwardingEvents, timerStarts]
  | some tl =>
    simp only [forwardingEvents]
    split_ifs <;> simp [timerStarts, Event.isStart]

theorem timerStops_forwardingEvents (sc scope : Scope) (k : Metric) (forwardedFrom : String)
    (taskList : Option types.TaskList) :
    timerStops sc k (forwardingEvents scope forwardedFrom taskList) = 0 := by
  cases taskList with
  | none => simp [forwardingEvents, timerStops]
  | some tl =>
    simp only [forwardingEvents]
    split_ifs <;> simp [timerStops, Event.isStop]

theorem innerCalls_eventsAfter (op : Operation) (ret : op.Return) :
    innerCalls (eventsAfter op ret) = 0 := by
  simp only [eventsAfter, innerCalls]
  split_ifs <;> simp [Event.isCall]

theorem forwarded_eventsAfter (sc : Scope) (op : Operation) (ret : op.Return) :
    increments sc .MatchingClientForwardedCounter (eventsAfter op ret) = 0 := by
  simp only [eventsAfter, increments]
  split_ifs <;> simp [Event.isInc]

theorem invalid_eventsAfter (sc : Scope) (op : Operation) (ret : op.Return) :
    increments sc .MatchingClientInvalidTaskListName (eventsAfter op ret) = 0 := by
  simp only [eventsAfter, increments]
  split_ifs <;> simp [Event.isInc]

theorem requests_callEvents (op' op : Operation) (ctx : Context) (r : op.Request)
    (opts : List CallOption) (ret : op.Return) :
    increments op'.scope .CadenceClientRequests (callEvents op ctx r opts ret) =
      if op' = op then 1 else 0 := by
  have := increments_forwardingEvents op'.scope op.scope .CadenceClientRequests
    (op.forwardedFromOf r) (op.taskListOf r) (by decide) (by decide)
  simp only [increments] at this
  simp only [callEvents, increments, eventsBefore, eventsAfter, List.countP_append,
    List.countP_cons, this]
  by_cases hsc : op' = op <;> by_cases he : op.errorOf ret = none <;>
    simp [Event.isInc, hsc, he, scope_eq_iff, Ne.symm]

theorem failures_callEvents (op' op : Operation) (ctx : Context) (r : op.Request)
    (opts : List CallOption) (ret : op.Return) :
    increments op'.scope .CadenceClientFailures (callEvents op ctx r opts ret) =
      if op' = op ∧ op.errorOf ret ≠ none then 1 else 0 := by
  have := increments_forwardingEvents op'.scope op.scope .CadenceClientFailures
    (op.forwardedFromOf r) (op.taskListOf r) (by decide) (by decide)
  simp only [increments] at this
  simp only [callEvents, increments, eventsBefore, eventsAfter, List.countP_append,
    List.countP_cons, this]
  by_cases hsc : op' = op <;> by_cases he : op.errorOf ret = none <;>
    simp [Event.isInc, hsc, he, scope_eq_iff, Ne.symm]

theorem forwarded_callEvents (sc : Scope) (op : Operation) (ctx : Context) (r : op.Request)
    (opts : List CallOption) (ret : op.Return) :
    increments sc .MatchingClientForwardedCounter (callEvents op ctx r opts ret) =
      increments sc .MatchingClientForwardedCounter
        (forwardingEvents op.scope (op.forwardedFromOf r) (op.taskListOf r)) := by
  have := forwarded_eventsAfter sc op ret
  simp only [increments] at this
  simp [callEvents, increments, eventsBefore, List.countP_append, List.countP_cons, this,
    Event.isInc]

theorem invalid_callEvents (sc : Scope) (op : Operation) (ctx : Context) (r : op.Request)
    (opts : List CallOption) (ret : op.Return) :
    increments sc .MatchingClientInvalidTaskListName (callEvents op ctx r opts ret) =
      increments sc .MatchingClientInvalidTaskListName
        (forwardingEvents op.scope (op.forwardedFromOf r) (op.taskListOf r)) := by
  have := invalid_eventsAfter sc op ret
  simp only [increments] at this
  simp [callEvents, increments, eventsBefore, List.countP_append, List.countP_cons, this,
    Event.isInc]

theorem timerStarts_callEvents (op' op : Operation) (k : Metric) (ctx : Context)
    (r : op.Request) (opts : List CallOption) (ret : op.Return) :
    timerStarts op'.scope k (callEvents op ctx r opts ret) =
      if op' = op ∧ k = .CadenceClientLatency then 1 else 0 := by
  have := timerStarts_forwardingEvents op'.scope op.scope k (op.forwardedFromOf r)
    (op.taskListOf r)
  simp only [timerStarts] at this
  simp only [callEvents, timerStarts, eventsBefore, eventsAfter, List.countP_append,
    List.countP_cons, this]
  by_cases hsc : op' = op <;> by_cases hk : k = .CadenceClientLatency <;>
    by_cases he : op.errorOf ret = none <;>
    simp [Event.isStart, hsc, hk, he, scope_eq_iff, eq_comm]

theorem timerStops_callEvents (op' op : Operation) (k : Metric) (ctx : Context)
    (r : op.Request) (opts : List CallOption) (ret : op.Return) :
    timerStops op'.scope k (callEvents op ctx r opts ret) =
      if op' = op ∧ k = .CadenceClientLatency then 1 else 0 := by
  have := timerStops_forwardingEvents op'.scope op.scope k (op.forwardedFromOf r)
    (op.taskListOf r)
  simp only [timerStops] at this
  simp only [callEvents, timerStops, eventsBefore, eventsAfter, List.countP_append,
    List.countP_cons, this]
  by_cases hsc : op' = op <;> by_cases hk : k = .CadenceClientLatency <;>
    by_cases he : op.errorOf ret = none <;>
    simp [Event.isStop, hsc, hk, he, scope_eq_iff, eq_comm]

theorem forwarded_emittedBy_some {σ : Type} (sc : Scope) (c : matching.metricClient σ)
    (op : Operation) (ctx : Context) (r : op.Request) (opts : List CallOption) (w : World σ) :
    increments sc .MatchingClientForwardedCounter (emittedBy (c.call op ctx (some r) opts) w) =
      increments sc .MatchingClientForwardedCounter
        (forwardingEvents op.scope (op.forwardedFromOf r) (op.taskListOf r)) := by
  rw [emittedBy, call_some]
  cases c.client.method op ctx (some r) opts w.inner with
  | returned ret s =>
    simp only [Outcome.finalState, List.drop_left]
    exact forwarded_callEvents sc op ctx r opts ret
  | panicked p s =>
    simp [Outcome.finalState, increments, eventsBefore, List.countP_append, List.countP_cons,
      Event.isInc]

theorem forwarded_emittedBy_none {σ : Type} (sc : Scope) (c : matching.metricClient σ)
    (op : Operation) (ctx : Context) (opts : List CallOption) (w : World σ)
    (hop : op.hasForwardingStep = false) :
    increments sc .MatchingClientForwardedCounter (emittedBy (c.call op ctx none opts) w) = 0 := by
  rw [emittedBy, call_none_passes c op ctx opts w hop]
  cases c.client.method op ctx none opts w.inner with
  | returned ret s =>
    have := forwarded_eventsAfter sc op ret
    simp only [increments] at this
    simp [Outcome.finalState, increments, List.countP_cons, Event.isInc, this]
  | panicked p s =>
    simp [Outcome.finalState, increments, List.countP_cons, Event.isInc]

theorem taskListOf_none_of_no_step (op : Operation) (r : op.Request)
    (hop : op.hasForwardingStep = false) : op.taskListOf r = none := by
  cases op <;> simp [Operation.hasForwardingStep] at hop <;> rfl

/-- A request with a task list and a non-empty forwarded-from, for each operation with
forwarding step. -/
theorem exists_forwarded_request (op : Operation) (hop : op.hasForwardingStep = true) :
    ∃ r : op.Request, op.forwardedFromOf r ≠ "" ∧ op.taskListOf r ≠ none := by
  cases op <;> simp [Operation.hasForwardingStep] at hop
  · exact ⟨⟨"parent", some ⟨some "orders"⟩, ""⟩, by decide, by simp [Operation.taskListOf]⟩
  · exact ⟨⟨"parent", some ⟨some "orders"⟩, ""⟩, by decide, by simp [Operation.taskListOf]⟩
  · exact ⟨⟨"parent", some ⟨some ⟨some "orders"⟩, ""⟩, ""⟩,
      by decide, by simp [Operation.taskListOf]⟩
  · exact ⟨⟨"parent", some ⟨some ⟨some "orders"⟩, ""⟩, ""⟩,
      by decide, by simp [Operation.taskListOf]⟩
  · exact ⟨⟨"parent", some ⟨some "orders"⟩, ""⟩, by decide, by simp [Operation.taskListOf]⟩

/-! ## The contract of the decorator -/

/-- C1: for each of the nine operations, every present request, every list of call options
and every inner client, if the same-named inner operation returns a value then one call to
the decorator returns exactly that value (response and error alike) and leaves the inner
client in the state that single inner call produced; its events contain exactly one call of
the inner client, the same-named operation with the identical context, request and options. -/
theorem call_forwards_once_and_returns_inner_result {σ : Type} (c : matching.metricClient σ)
    (op : Operation) (ctx : Context) (r : op.Request) (opts : List CallOption) (w : World σ)
    (ret : op.Return) (s : σ)
    (h : c.client.method op ctx (some r) opts w.inner = .returned ret s) :
    ∃ before after : List Event,
      c.call op ctx (some r) opts w =
        .returned ret
          { trace := w.trace ++ (before ++ Event.Call op ctx (some r) opts :: after),
            inner := s } ∧
      innerCalls before = 0 ∧ innerCalls after = 0 := by
  refine ⟨eventsBefore op r, eventsAfter op ret, call_returned c op ctx r opts w ret s h, ?_,
    innerCalls_eventsAfter op ret⟩
  have := innerCalls_forwardingEvents op.scope (op.forwardedFromOf r) (op.taskListOf r)
  simp only [innerCalls] at this
  simp [eventsBefore, innerCalls, Event.isCall, this]

/-- Witness of C1: a failing `QueryWorkflow` of the sample inner client. -/
theorem call_forwards_once_and_returns_inner_result_witness :
    failingDecorator.client.method .QueryWorkflow sampleContext (some plainQuery) sampleOptions
        freshWorld.inner = .returned (none, some ⟨"unavailable"⟩) 1 ∧
    ∃ before after : List Event,
      failingDecorator.call .QueryWorkflow sampleContext (some plainQuery) sampleOptions
          freshWorld =
        .returned (none, some ⟨"unavailable"⟩)
          { trace := freshWorld.trace ++ (before ++
              Event.Call .QueryWorkflow sampleContext (some plainQuery) sampleOptions :: after),
            inner := 1 } ∧
      innerCalls before = 0 ∧ innerCalls after = 0 :=
  ⟨rfl, call_forwards_once_and_returns_inner_result failingDecorator .QueryWorkflow
    sampleContext plainQuery sampleOptions freshWorld (none, some ⟨"unavailable"⟩) 1 rfl⟩

/-- C2: for each of the nine operations and every present request, one call to the decorator
whose inner call returns increments the failures counter exactly once in the scope of that
operation when the returned error is not nil, whatever the error is, and in no scope at all
when the returned error is nil. -/
theorem failures_counted_iff_inner_error {σ : Type} (c : matching.metricClient σ)
    (op : Operation) (ctx : Context) (r : op.Request) (opts : List CallOption) (w : World σ)
    (ret : op.Return) (s : σ)
    (h : c.client.method op ctx (some r) opts w.inner = .returned ret s) :
    ∃ evs : List Event,
      c.call op ctx (some r) opts w = .returned ret { trace := w.trace ++ evs, inner := s } ∧
      ∀ op' : Operation, increments op'.scope .CadenceClientFailures evs =
        if op' = op ∧ op.errorOf ret ≠ none then 1 else 0 :=
  ⟨_, call_returned c op ctx r opts w ret s h,
    fun op' => failures_callEvents op' op ctx r opts ret⟩

/-- Witness of C2: a failing `AddActivityTask` of the sample inner client. -/
theorem failures_counted_iff_inner_error_witness :
    failingDecorator.client.method .AddActivityTask sampleContext (some forwardedAdd)
        sampleOptions freshWorld.inner = .returned (some ⟨"unavailable"⟩) 1 ∧
    ∃ evs : List Event,
      failingDecorator.call .AddActivityTask sampleContext (some forwardedAdd) sampleOptions
          freshWorld =
        .returned (some ⟨"unavailable"⟩) { trace := freshWorld.trace ++ evs, inner := 1 } ∧
      ∀ op' : Operation, increments op'.scope .CadenceClientFailures evs =
        if op' = .AddActivityTask ∧
          Operation.errorOf .AddActivityTask (some ⟨"unavailable"⟩) ≠ none then 1 else 0 :=
  ⟨rfl, failures_counted_iff_inner_error failingDecorator .AddActivityTask sampleContext
    forwardedAdd sampleOptions freshWorld (some ⟨"unavailable"⟩) 1 rfl⟩

/-- C3: for each of the nine operations, every present request and every value the inner
call returns (with or without an error), one call to the decorator increments the requests
counter exactly once, starts exactly one timer, the latency timer, and stops exactly one
timer, the latency timer, all in the scope of that operation and none in the scope of any
other operation. -/
theorem requests_and_latency_once {σ : Type} (c : matching.metricClient σ)
    (op : Operation) (ctx : Context) (r : op.Request) (opts : List CallOption) (w : World σ)
    (ret : op.Return) (s : σ)
    (h : c.client.method op ctx (some r) opts w.inner = .returned ret s) :
    ∃ evs : List Event,
      c.call op ctx (some r) opts w = .returned ret { trace := w.trace ++ evs, inner := s } ∧
      (∀ op' : Operation, increments op'.scope .CadenceClientRequests evs =
        if op' = op then 1 else 0) ∧
      (∀ (op' : Operation) (k : Metric), timerStarts op'.scope k evs =
        if op' = op ∧ k = .CadenceClientLatency then 1 else 0) ∧
      (∀ (op' : Operation) (k : Metric), timerStops op'.scope k evs =
        if op' = op ∧ k = .CadenceClientLatency then 1 else 0) :=
  ⟨_, call_returned c op ctx r opts w ret s h,
    fun op' => requests_callEvents op' op ctx r opts ret,
    fun op' k => timerStarts_callEvents op' op k ctx r opts ret,
    fun op' k => timerStops_callEvents op' op k ctx r opts ret⟩

/-- Witness of C3: a failing `DescribeTaskList` of the sample inner client. -/
theorem requests_and_latency_once_witness :
    failingDecorator.client.method .DescribeTaskList sampleContext (some forwardedDescribe)
        sampleOptions freshWorld.inner = .returned (none, some ⟨"unavailable"⟩) 1 ∧
    ∃ evs : List Event,
      failingDecorator.call .DescribeTaskList sampleContext (some forwardedDescribe)
          sampleOptions freshWorld =
        .returned (none, some ⟨"unavailable"⟩) { trace := freshWorld.trace ++ evs, inner := 1 } ∧
      (∀ op' : Operation, increments op'.scope .CadenceClientRequests evs =
        if op' = .DescribeTaskList then 1 else 0) ∧
      (∀ (op' : Operation) (k : Metric), timerStarts op'.scope k evs =
        if op' = .DescribeTaskList ∧ k = .CadenceClientLatency then 1 else 0) ∧
      (∀ (op' : Operation) (k : Metric), timerStops op'.scope k evs =
        if op' = .DescribeTaskList ∧ k = .CadenceClientLatency then 1 else 0) :=
  ⟨rfl, requests_and_latency_once failingDecorator .DescribeTaskList sampleContext
    forwardedDescribe sampleOptions freshWorld (none, some ⟨"unavailable"⟩) 1 rfl⟩

/-- C4: for each of the five operations with a forwarding step (`AddActivityTask`,
`AddDecisionTask`, `QueryWorkflow` with the task list of the request, `PollForActivityTask`,
`PollForDecisionTask` with the task list of the present `PollRequest`) and every present
request whose task list is present, one call whose inner call returns increments the
forwarded counter exactly once, in the scope of the operation, when forwarded-from is not
empty, and otherwise never; it increments the invalid-task-list-name counter exactly once,
in the scope of the operation, when forwarded-from is empty and the name starts with the
reserved prefix, and otherwise never; requests is incremented once and failures once exactly
when the returned error is not nil. -/
theorem forwarding_counters_by_case {σ : Type} (c : matching.metricClient σ)
    (op : Operation) (ctx : Context) (r : op.Request) (opts : List CallOption) (w : World σ)
    (ret : op.Return) (s : σ) (tl : types.TaskList)
    (htl : op.taskListOf r = some tl)
    (h : c.client.method op ctx (some r) opts w.inner = .returned ret s) :
    ∃ evs : List Event,
      c.call op ctx (some r) opts w = .returned ret { trace := w.trace ++ evs, inner := s } ∧
      (∀ op' : Operation, increments op'.scope .MatchingClientForwardedCounter evs =
        if op' = op ∧ op.forwardedFromOf r ≠ "" then 1 else 0) ∧
      (∀ op' : Operation, increments op'.scope .MatchingClientInvalidTaskListName evs =
        if op' = op ∧ op.forwardedFromOf r = "" ∧
          strings.HasPrefix tl.GetName common.ReservedTaskListPrefix = true then 1 else 0) ∧
      increments op.scope .CadenceClientRequests evs = 1 ∧
      increments op.scope .CadenceClientFailures evs =
        if op.errorOf ret ≠ none then 1 else 0 := by
  refine ⟨_, call_returned c op ctx r opts w ret s h, ?_, ?_, ?_, ?_⟩
  · intro op'
    rw [forwarded_callEvents, forwarded_forwardingEvents, htl]
    simp [scope_eq_iff]
  · intro op'
    rw [invalid_callEvents, htl, invalid_forwardingEvents]
    simp [scope_eq_iff]
  · rw [requests_callEvents]; simp
  · rw [failures_callEvents]; simp

/-- Witness of C4: the end-to-end example of the spec, `PollForActivityTask` on the task
list `/__cadence_sys/child-42` with an empty forwarded-from and a successful inner call:
requests 1, invalid-task-list-name 1, forwarded 0, failures 0. -/
theorem forwarding_counters_by_case_witness :
    Operation.taskListOf .PollForActivityTask childPartitionPoll =
        some { Name := some "/__cadence_sys/child-42" } ∧
    succeedingDecorator.client.method .PollForActivityTask sampleContext
        (some childPartitionPoll) sampleOptions freshWorld.inner =
      .returned (some ⟨"activity"⟩, none) 1 ∧
    ∃ evs : List Event,
      succeedingDecorator.call .PollForActivityTask sampleContext (some childPartitionPoll)
          sampleOptions freshWorld =
        .returned (some ⟨"activity"⟩, none) { trace := freshWorld.trace ++ evs, inner := 1 } ∧
      increments .MatchingClientPollForActivityTaskScope .CadenceClientRequests evs = 1 ∧
      increments .MatchingClientPollForActivityTaskScope .MatchingClientInvalidTaskListName
        evs = 1 ∧
      increments .MatchingClientPollForActivityTaskScope .MatchingClientForwardedCounter
        evs = 0 ∧
      increments .MatchingClientPollForActivityTaskScope .CadenceClientFailures evs = 0 := by
  refine ⟨rfl, rfl, ?_⟩
  obtain ⟨evs, hcall, hfwd, hinv, hreq, hfail⟩ :=
    forwarding_counters_by_case succeedingDecorator .PollForActivityTask sampleContext
      childPartitionPoll sampleOptions freshWorld (some ⟨"activity"⟩, none) 1
      { Name := some "/__cadence_sys/child-42" } rfl rfl
  exact ⟨evs, hcall, hreq, (hinv .PollForActivityTask).trans (by decide),
    (hfwd .PollForActivityTask).trans (by decide), hfail.trans (by decide)⟩

/-- C5: for every scope, every forwarded-from string and every task-list pointer (nil, or a
task list with any name, also an absent one), `emitForwardedFromStats` returns after at most
one counter increment, and exactly one of three cases holds: it increments only the
forwarded counter of the scope iff the task list is present and forwarded-from is not empty;
it increments only the invalid-task-list-name counter of the scope iff the task list is
present, forwarded-from is empty and the name starts with the reserved prefix; it emits
nothing iff the task list is absent, or forwarded-from is empty and the name lacks the
reserved prefix. -/
theorem emitForwardedFromStats_three_outcomes {σ : Type} (c : matching.metricClient σ)
    (scope : Scope) (forwardedFrom : String) (taskList : Option types.TaskList)
    (w : World σ) :
    ∃ evs : List Event,
      c.emitForwardedFromStats scope forwardedFrom taskList w =
        .returned () { trace := w.trace ++ evs, inner := w.inner } ∧
      evs.length ≤ 1 ∧
      (evs = [.IncCounter scope .MatchingClientForwardedCounter] ↔
        taskList ≠ none ∧ forwardedFrom ≠ "") ∧
      (evs = [.IncCounter scope .MatchingClientInvalidTaskListName] ↔
        ∃ tl, taskList = some tl ∧ forwardedFrom = "" ∧
          strings.HasPrefix tl.GetName common.ReservedTaskListPrefix = true) ∧
      (evs = [] ↔
        taskList = none ∨ (forwardedFrom = "" ∧
          ∀ tl, taskList = some tl →
            strings.HasPrefix tl.GetName common.ReservedTaskListPrefix = false)) := by
  refine ⟨forwardingEvents scope forwardedFrom taskList,
    emitForwardedFromStats_eq c scope forwardedFrom taskList w,
    forwardingEvents_length scope forwardedFrom taskList, ?_⟩
  cases taskList with
  | none => simp [forwardingEvents]
  | some tl =>
    simp only [forwardingEvents]
    by_cases hff : forwardedFrom = "" <;>
      by_cases hp : strings.HasPrefix tl.GetName common.ReservedTaskListPrefix = true <;>
      simp [hff, hp]

/-- C6: for `PollForActivityTask` and `PollForDecisionTask` and every present request whose
nested `PollRequest` is nil, whatever its forwarded-from: one call whose inner call returns
emits exactly the requests increment, the timer start, the inner call, the timer stop and,
iff the returned error is not nil, one failures increment; it increments neither the
forwarded nor the invalid-task-list-name counter, and it returns what the inner call
returned. -/
theorem poll_without_poll_request {σ : Type} (c : matching.metricClient σ)
    (op : Operation) (ctx : Context) (r : op.Request) (opts : List CallOption) (w : World σ)
    (ret : op.Return) (s : σ)
    (hp : op.pollRequestAbsent r = true)
    (h : c.client.method op ctx (some r) opts w.inner = .returned ret s) :
    ∃ evs : List Event,
      c.call op ctx (some r) opts w = .returned ret { trace := w.trace ++ evs, inner := s } ∧
      evs = [.IncCounter op.scope .CadenceClientRequests,
          .StartTimer op.scope .CadenceClientLatency, Event.Call op ctx (some r) opts,
          .Stop op.scope .CadenceClientLatency] ++
        (if op.errorOf ret ≠ none then [.IncCounter op.scope .CadenceClientFailures] else []) ∧
      ∀ op' : Operation,
        increments op'.scope .MatchingClientForwardedCounter evs = 0 ∧
        increments op'.scope .MatchingClientInvalidTaskListName evs = 0 := by
  have htl : op.taskListOf r = none := by
    cases op <;> simp [Operation.pollRequestAbsent] at hp <;>
      simp [Operation.taskListOf, hp]
  refine ⟨_, call_returned c op ctx r opts w ret s h, ?_, ?_⟩
  · simp [callEvents, eventsBefore, eventsAfter, htl, forwardingEvents_none]
  · intro op'
    rw [forwarded_callEvents, invalid_callEvents, htl]
    simp [forwardingEvents_none, increments]

/-- Witness of C6: a failing `PollForDecisionTask` on a request without `PollRequest`. -/
theorem poll_without_poll_request_witness :
    Operation.pollRequestAbsent .PollForDecisionTask emptyPoll = true ∧
    failingDecorator.client.method .PollForDecisionTask sampleContext (some emptyPoll)
        sampleOptions freshWorld.inner = .returned (none, some ⟨"unavailable"⟩) 1 ∧
    ∃ evs : List Event,
      failingDecorator.call .PollForDecisionTask sampleContext (some emptyPoll) sampleOptions
          freshWorld =
        .returned (none, some ⟨"unavailable"⟩) { trace := freshWorld.trace ++ evs, inner := 1 } ∧
      evs = [.IncCounter .MatchingClientPollForDecisionTaskScope .CadenceClientRequests,
          .StartTimer .MatchingClientPollForDecisionTaskScope .CadenceClientLatency,
          Event.Call .PollForDecisionTask sampleContext (some emptyPoll) sampleOptions,
          .Stop .MatchingClientPollForDecisionTaskScope .CadenceClientLatency,
          .IncCounter .MatchingClientPollForDecisionTaskScope .CadenceClientFailures] ∧
      ∀ op' : Operation,
        increments op'.scope .MatchingClientForwardedCounter evs = 0 ∧
        increments op'.scope .MatchingClientInvalidTaskListName evs = 0 :=
  ⟨rfl, rfl, poll_without_poll_request failingDecorator .PollForDecisionTask sampleContext
    emptyPoll sampleOptions freshWorld (none, some ⟨"unavailable"⟩) 1 rfl rfl⟩

/-- C7: for each of the nine operations, every present request and every value the inner
call returns, the events of one call are, in this order: the requests increment, the timer
start, at most one forwarding-diagnostics increment (forwarded or invalid-task-list-name, in
the scope of the operation), the inner call, the timer stop, and last, only when the
returned error is not nil, the failures increment. -/
theorem events_in_order {σ : Type} (c : matching.metricClient σ)
    (op : Operation) (ctx : Context) (r : op.Request) (opts : List CallOption) (w : World σ)
    (ret : op.Return) (s : σ)
    (h : c.client.method op ctx (some r) opts w.inner = .returned ret s) :
    ∃ d f : List Event,
      c.call op ctx (some r) opts w =
        .returned ret
          { trace := w.trace ++
              ([.IncCounter op.scope .CadenceClientRequests,
                  .StartTimer op.scope .CadenceClientLatency] ++ d ++
                [Event.Call op ctx (some r) opts, .Stop op.scope .CadenceClientLatency] ++ f),
            inner := s } ∧
      d.length ≤ 1 ∧
      (∀ e ∈ d, e = .IncCounter op.scope .MatchingClientForwardedCounter ∨
        e = .IncCounter op.scope .MatchingClientInvalidTaskListName) ∧
      f = if op.errorOf ret ≠ none then [.IncCounter op.scope .CadenceClientFailures]
        else [] := by
  refine ⟨forwardingEvents op.scope (op.forwardedFromOf r) (op.taskListOf r), _, ?_,
    forwardingEvents_length _ _ _, forwardingEvents_mem _ _ _, rfl⟩
  rw [call_returned c op ctx r opts w ret s h]
  simp [callEvents, eventsBefore, eventsAfter]

/-- Witness of C7: a failing, forwarded `AddActivityTask`. -/
theorem events_in_order_witness :
    failingDecorator.client.method .AddActivityTask sampleContext (some forwardedAdd)
        sampleOptions freshWorld.inner = .returned (some ⟨"unavailable"⟩) 1 ∧
    ∃ d f : List Event,
      failingDecorator.call .AddActivityTask sampleContext (some forwardedAdd) sampleOptions
          freshWorld =
        .returned (some ⟨"unavailable"⟩)
          { trace := freshWorld.trace ++
              ([.IncCounter .MatchingClientAddActivityTaskScope .CadenceClientRequests,
                  .StartTimer .MatchingClientAddActivityTaskScope .CadenceClientLatency] ++ d ++
                [Event.Call .AddActivityTask sampleContext (some forwardedAdd) sampleOptions,
                  .Stop .MatchingClientAddActivityTaskScope .CadenceClientLatency] ++ f),
            inner := 1 } ∧
      d.length ≤ 1 ∧
      (∀ e ∈ d, e = .IncCounter .MatchingClientAddActivityTaskScope
          .MatchingClientForwardedCounter ∨
        e = .IncCounter .MatchingClientAddActivityTaskScope
          .MatchingClientInvalidTaskListName) ∧
      f = [.IncCounter .MatchingClientAddActivityTaskScope .CadenceClientFailures] :=
  ⟨rfl, events_in_order failingDecorator .AddActivityTask sampleContext forwardedAdd
    sampleOptions freshWorld (some ⟨"unavailable"⟩) 1 rfl⟩

/-- C8, refuted as stated: in a forwarded `AddActivityTask` the forwarded counter is
incremented after the timer start and before the timer stop, so the inner call is not the
only event while the timer runs. -/
theorem counter_incremented_while_timer_runs :
    succeedingDecorator.call .AddActivityTask sampleContext (some forwardedAdd) sampleOptions
        freshWorld =
      .returned none
        { trace := [.IncCounter .MatchingClientAddActivityTaskScope .CadenceClientRequests,
            .StartTimer .MatchingClientAddActivityTaskScope .CadenceClientLatency,
            .IncCounter .MatchingClientAddActivityTaskScope .MatchingClientForwardedCounter,
            Event.Call .AddActivityTask sampleContext (some forwardedAdd) sampleOptions,
            .Stop .MatchingClientAddActivityTaskScope .CadenceClientLatency],
          inner := 1 } ∧
    whileTimerRuns
        [.IncCounter .MatchingClientAddActivityTaskScope .CadenceClientRequests,
          .StartTimer .MatchingClientAddActivityTaskScope .CadenceClientLatency,
          .IncCounter .MatchingClientAddActivityTaskScope .MatchingClientForwardedCounter,
          Event.Call .AddActivityTask sampleContext (some forwardedAdd) sampleOptions,
          .Stop .MatchingClientAddActivityTaskScope .CadenceClientLatency] =
      [.IncCounter .MatchingClientAddActivityTaskScope .MatchingClientForwardedCounter,
        Event.Call .AddActivityTask sampleContext (some forwardedAdd) sampleOptions] ∧
    (whileTimerRuns
        [.IncCounter .MatchingClientAddActivityTaskScope .CadenceClientRequests,
          .StartTimer .MatchingClientAddActivityTaskScope .CadenceClientLatency,
          .IncCounter .MatchingClientAddActivityTaskScope .MatchingClientForwardedCounter,
          Event.Call .AddActivityTask sampleContext (some forwardedAdd) sampleOptions,
          .Stop .MatchingClientAddActivityTaskScope .CadenceClientLatency]).countP
        Event.isCounter = 1 :=
  ⟨rfl, rfl, rfl⟩

/-- C8, amended: for each of the nine operations and every present request, the events
between the timer start and the timer stop of one call are the forwarding-diagnostics
increment of that call, if it makes one (forwarded or invalid-task-list-name, in the scope
of the operation), followed by the inner call; the requests and the failures increment
never fall in between; and a call that makes no forwarding-diagnostics increment, as every
call of an operation without forwarding step, has the inner call as the only event while
the timer runs. -/
theorem timer_spans_diagnostics_and_inner_call {σ : Type} (c : matching.metricClient σ)
    (op : Operation) (ctx : Context) (r : op.Request) (opts : List CallOption) (w : World σ)
    (ret : op.Return) (s : σ)
    (h : c.client.method op ctx (some r) opts w.inner = .returned ret s) :
    ∃ evs d : List Event,
      c.call op ctx (some r) opts w = .returned ret { trace := w.trace ++ evs, inner := s } ∧
      whileTimerRuns evs = d ++ [Event.Call op ctx (some r) opts] ∧
      d.length ≤ 1 ∧
      (∀ e ∈ d, e = .IncCounter op.scope .MatchingClientForwardedCounter ∨
        e = .IncCounter op.scope .MatchingClientInvalidTaskListName) ∧
      d.length = increments op.scope .MatchingClientForwardedCounter evs +
        increments op.scope .MatchingClientInvalidTaskListName evs ∧
      (op.hasForwardingStep = false → d = []) := by
  refine ⟨_, forwardingEvents op.scope (op.forwardedFromOf r) (op.taskListOf r),
    call_returned c op ctx r opts w ret s h, ?_, forwardingEvents_length _ _ _,
    forwardingEvents_mem _ _ _, ?_, ?_⟩
  · simp only [callEvents, eventsBefore, eventsAfter]
    cases op.taskListOf r with
    | none => simp [forwardingEvents, whileTimerRuns, Event.isTimerStart, Event.isTimerStop]
    | some tl =>
      simp only [forwardingEvents]
      split_ifs <;> simp [whileTimerRuns, Event.isTimerStart, Event.isTimerStop]
  · rw [forwarded_callEvents, invalid_callEvents]
    cases op.taskListOf r with
    | none => simp [forwardingEvents, increments]
    | some tl =>
      simp only [forwardingEvents]
      split_ifs <;> simp [increments, Event.isInc]
  · intro hop
    have htl : op.taskListOf r = none := by
      cases op <;> simp [Operation.hasForwardingStep] at hop <;> rfl
    rw [htl, forwardingEvents_none]

/-- Witness of C8 as amended: a successful, forwarded `AddActivityTask`. -/
theorem timer_spans_diagnostics_and_inner_call_witness :
    succeedingDecorator.client.method .AddActivityTask sampleContext (some forwardedAdd)
        sampleOptions freshWorld.inner = .returned none 1 ∧
    ∃ evs d : List Event,
      succeedingDecorator.call .AddActivityTask sampleContext (some forwardedAdd)
          sampleOptions freshWorld =
        .returned none { trace := freshWorld.trace ++ evs, inner := 1 } ∧
      whileTimerRuns evs =
        d ++ [Event.Call .AddActivityTask sampleContext (some forwardedAdd) sampleOptions] ∧
      d.length ≤ 1 ∧
      (∀ e ∈ d, e = .IncCounter .MatchingClientAddActivityTaskScope
          .MatchingClientForwardedCounter ∨
        e = .IncCounter .MatchingClientAddActivityTaskScope
          .MatchingClientInvalidTaskListName) ∧
      d.length = increments .MatchingClientAddActivityTaskScope
          .MatchingClientForwardedCounter evs +
        increments .MatchingClientAddActivityTaskScope
          .MatchingClientInvalidTaskListName evs ∧
      (Operation.hasForwardingStep .AddActivityTask = false → d = []) :=
  ⟨rfl, timer_spans_diagnostics_and_inner_call succeedingDecorator .AddActivityTask
    sampleContext forwardedAdd sampleOptions freshWorld none 1 rfl⟩

/-- C9, refuted as stated: on a nil `AddActivityTask` request the inner client returns
normally, yet the decorator panics with a nil dereference before it reaches the inner
client. -/
theorem nil_request_panics_in_decorator :
    succeedingClient.AddActivityTask sampleContext none sampleOptions freshWorld.inner =
      .returned none 1 ∧
    succeedingDecorator.call .AddActivityTask sampleContext none sampleOptions freshWorld =
      .panicked .nilPointerDereference
        { trace := [.IncCounter .MatchingClientAddActivityTaskScope .CadenceClientRequests,
            .StartTimer .MatchingClientAddActivityTaskScope .CadenceClientLatency],
          inner := 0 } :=
  ⟨rfl, rfl⟩

/-- C9, amended: for each of the nine operations and every present request, also one whose
task list, task-list name or nested `PollRequest` is absent, and for a nil request of the
four operations without forwarding step, if the inner call returns then the call to the
decorator returns, with the value the inner call returned and the inner client in the state
that call produced. -/
theorem decorator_returns_when_inner_returns {σ : Type} (c : matching.metricClient σ)
    (op : Operation) (ctx : Context) (request : Option op.Request) (opts : List CallOption)
    (w : World σ) (ret : op.Return) (s : σ)
    (hr : request ≠ none ∨ op.hasForwardingStep = false)
    (h : c.client.method op ctx request opts w.inner = .returned ret s) :
    ∃ evs : List Event,
      c.call op ctx request opts w = .returned ret { trace := w.trace ++ evs, inner := s } := by
  cases request with
  | some r => exact ⟨_, call_returned c op ctx r opts w ret s h⟩
  | none =>
    have hop : op.hasForwardingStep = false := by simpa using hr
    rw [call_none_passes c op ctx opts w hop, h]
    exact ⟨_, rfl⟩

/-- Witness of C9 as amended: a poll request whose task list has no name. -/
theorem decorator_returns_when_inner_returns_witness :
    ((some namelessPoll : Option types.MatchingPollForActivityTaskRequest) ≠ none ∨
      Operation.hasForwardingStep .PollForActivityTask = false) ∧
    succeedingDecorator.client.method .PollForActivityTask sampleContext (some namelessPoll)
        sampleOptions freshWorld.inner = .returned (some ⟨"activity"⟩, none) 1 ∧
    ∃ evs : List Event,
      succeedingDecorator.call .PollForActivityTask sampleContext (some namelessPoll)
          sampleOptions freshWorld =
        .returned (some ⟨"activity"⟩, none) { trace := freshWorld.trace ++ evs, inner := 1 } :=
  ⟨Or.inl (by simp), rfl,
    decorator_returns_when_inner_returns succeedingDecorator .PollForActivityTask sampleContext
      (some namelessPoll) sampleOptions freshWorld (some ⟨"activity"⟩, none) 1
      (Or.inl (by simp)) rfl⟩

/-- C10, refuted as stated: it is not the case that every operation has a request with a
non-empty forwarded-from whose call increments the forwarded counter in the scope of the
operation; `RespondQueryTaskCompleted` never does, whatever the request. -/
theorem forwarded_counter_not_in_every_scope :
    ¬ ∀ op : Operation, ∃ (ctx : Context) (r : op.Request) (opts : List CallOption),
        op.forwardedFromOf r ≠ "" ∧
        0 < increments op.scope .MatchingClientForwardedCounter
          (emittedBy (succeedingDecorator.call op ctx (some r) opts) freshWorld) := by
  intro hall
  obtain ⟨ctx, r, opts, _, hpos⟩ := hall .RespondQueryTaskCompleted
  rw [forwarded_emittedBy_some, taskListOf_none_of_no_step _ r rfl, forwardingEvents_none] at hpos
  simp [increments] at hpos

/-- C10, amended: the forwarded counter is used in the scopes of the five operations with
forwarding step only.  Each of `AddActivityTask`, `AddDecisionTask`, `PollForActivityTask`,
`PollForDecisionTask` and `QueryWorkflow` has a request with a task list and a non-empty
forwarded-from, and one call with any such request increments the forwarded counter exactly
once in the scope of the operation and in the scope of no other operation;
`RespondQueryTaskCompleted`, `CancelOutstandingPoll`,
`DescribeTaskList` and `ListTaskListPartitions` increment it in no scope, whatever the
request pointer. -/
theorem forwarded_counter_where_step_runs {σ : Type} (c : matching.metricClient σ)
    (op : Operation) (ctx : Context) (opts : List CallOption) (w : World σ) :
    if op.hasForwardingStep = true then
      (∃ r : op.Request, op.forwardedFromOf r ≠ "" ∧ op.taskListOf r ≠ none) ∧
      ∀ r : op.Request, op.forwardedFromOf r ≠ "" → op.taskListOf r ≠ none →
        ∀ op' : Operation,
          increments op'.scope .MatchingClientForwardedCounter
            (emittedBy (c.call op ctx (some r) opts) w) = if op' = op then 1 else 0
    else
      ∀ (request : Option op.Request) (op' : Operation),
        increments op'.scope .MatchingClientForwardedCounter
          (emittedBy (c.call op ctx request opts) w) = 0 := by
  split_ifs with hop
  · refine ⟨exists_forwarded_request op hop, fun r hff htl op' => ?_⟩
    rw [forwarded_emittedBy_some, forwarded_forwardingEvents]
    simp [hff, htl, scope_eq_iff]
  · have hop' : op.hasForwardingStep = false := by simpa using hop
    intro request op'
    cases request with
    | none => exact forwarded_emittedBy_none _ c op ctx opts w hop'
    | some r =>
      rw [forwarded_emittedBy_some, taskListOf_none_of_no_step op r hop', forwardingEvents_none]
      simp [increments]

/-- Witness of C10 as amended: a forwarded `AddActivityTask` increments the forwarded
counter once in its scope and in no other scope; a `DescribeTaskList` with a task list and
a forwarded-from origin increments it in no scope. -/
theorem forwarded_counter_where_step_runs_witness :
    (∀ op' : Operation,
      increments op'.scope .MatchingClientForwardedCounter
        (emittedBy (succeedingDecorator.call .AddActivityTask sampleContext (some forwardedAdd)
          sampleOptions) freshWorld) = if op' = .AddActivityTask then 1 else 0) ∧
    ∀ op' : Operation,
      increments op'.scope .MatchingClientForwardedCounter
        (emittedBy (succeedingDecorator.call .DescribeTaskList sampleContext
          (some forwardedDescribe) sampleOptions) freshWorld) = 0 := by
  have hadd := forwarded_counter_where_step_runs succeedingDecorator .AddActivityTask
    sampleContext sampleOptions freshWorld
  have hdesc := forwarded_counter_where_step_runs succeedingDecorator .DescribeTaskList
    sampleContext sampleOptions freshWorld
  simp only [Operation.hasForwardingStep, if_true] at hadd
  simp only [Operation.hasForwardingStep, Bool.false_eq_true, if_false] at hdesc
  exact ⟨hadd.2 forwardedAdd (by decide) (by simp [Operation.taskListOf, forwardedAdd]),
    fun op' => hdesc (some forwardedDescribe) op'⟩

end Cadence
